import Mathlib

/-!
Verification of the squadcast-analyze repository.

The development shallowly embeds the pure core of the repository:

* `src/squadcast_analyze/client.py` — `_build_export_url` and
  `export_incidents` (URL construction, HTTP status handling);
* `src/squadcast_analyze/config.py` — the `STATUS` environment parsing
  inside `load_settings`;
* `src/squadcast_analyze/cli.py` — the `fetch` command: status
  normalization (split on commas, trim, drop empties, deduplicate),
  the single-status fast path, and the multi-status JSON and CSV merge
  loops.

Python `bytes`/`str` values are modelled as Lean `String`; the backend
(the HTTP layer, which is external to the merge logic) is modelled as a
function from the requested status to the `Response` it returns, and
`json.loads` as an abstract parameter `parse : String → Option Json`
(`none` models a parse failure).  Backend calls are made observable by
threading an explicit trace of the statuses requested so far.
-/

/-! ### Models of the Python string primitives used by the source -/

/-- Model of Python `str.lower()` (ASCII case folding). -/
def pyLower (s : String) : String := String.mk (s.data.map Char.toLower)

/-- Model of Python `str.strip()`: drop leading and trailing whitespace. -/
def pyStrip (s : String) : String :=
  String.mk (((s.data.dropWhile Char.isWhitespace).reverse.dropWhile
    Char.isWhitespace).reverse)

/-- Split a character list at every occurrence of the separator `c`.
`splitChar c [] = [[]]`, matching Python `"".split(sep) == [""]`. -/
def splitChar (c : Char) : List Char → List (List Char)
  | [] => [[]]
  | ch :: rest =>
    let r := splitChar c rest
    if ch = c then [] :: r
    else
      match r with
      | [] => [[ch]]
      | g :: gs => (ch :: g) :: gs

/-- Model of Python `str.split(sep)` for a one-character separator. -/
def pySplit (sep : Char) (s : String) : List String :=
  (splitChar sep s.data).map String.mk

/-- Model of Python `str.split(",")`. -/
def pySplitComma (s : String) : List String := pySplit ',' s

/-- Model of Python `str.splitlines()` restricted to `\n` boundaries
(the merge code applies it to `str.strip()`ed text, so there is no
trailing newline).  `"".splitlines() == []`. -/
def splitlines (s : String) : List String :=
  if s = "" then [] else pySplit '\n' s

/-- Model of Python slicing `s[:n]` (by characters). -/
def pySlice (n : Nat) (s : String) : String := String.mk (s.data.take n)

/-- Model of Python `s.rstrip("/")`. -/
def rstripSlash (s : String) : String :=
  String.mk (s.data.reverse.dropWhile (fun c => c = '/')).reverse

/-! ### JSON values and a model of `json.dumps` -/

/-- JSON values as produced by `json.loads` (a Python dict is modelled
as an association list with distinct keys, in insertion order). -/
inductive Json where
  | null : Json
  | bool : Bool → Json
  | num : Int → Json
  | str : String → Json
  | arr : List Json → Json
  | obj : List (String × Json) → Json

/-- Escape one character for a JSON string literal. -/
def escapeChar (c : Char) : String :=
  if c = '"' then "\\\""
  else if c = '\\' then "\\\\"
  else if c = '\n' then "\\n"
  else String.singleton c

/-- Escape a string for a JSON string literal. -/
def escapeString (s : String) : String := String.join (s.data.map escapeChar)

mutual

/-- Model of Python `json.dumps` with its default separators
`", "` and `": "`. -/
def dumps : Json → String
  | Json.null => "null"
  | Json.bool true => "true"
  | Json.bool false => "false"
  | Json.num n => toString n
  | Json.str s => "\"" ++ escapeString s ++ "\""
  | Json.arr xs => "[" ++ dumpsArr xs ++ "]"
  | Json.obj fs => "\x7b" ++ dumpsObj fs ++ "\x7d"

/-- Comma-separated rendering of a JSON array body. -/
def dumpsArr : List Json → String
  | [] => ""
  | [x] => dumps x
  | x :: y :: rest => dumps x ++ ", " ++ dumpsArr (y :: rest)

/-- Comma-separated rendering of a JSON object body. -/
def dumpsObj : List (String × Json) → String
  | [] => ""
  | [(k, v)] => "\"" ++ escapeString k ++ "\": " ++ dumps v
  | (k, v) :: f :: rest =>
      "\"" ++ escapeString k ++ "\": " ++ dumps v ++ ", " ++ dumpsObj (f :: rest)

end

/-! ### `client.py` -/

/-- Model of an HTTP response as seen by `export_incidents`:
`status_code`, decoded body `text` (used for error previews) and raw
body `content` (the returned bytes). -/
structure Response where
  status_code : Nat
  text : String
  content : String

/-- The errors the embedded `fetch` can raise.  `badParameter` models
`typer.BadParameter`, `http` the `RuntimeError` raised by
`export_incidents` on a non-200 response (carrying the status code and
the `response.text[:4000]` preview), and `parseFailure` the
`RuntimeError` raised when a partial payload fails to parse as JSON
(carrying the offending status). -/
inductive FetchErr where
  | badParameter : String → FetchErr
  | http : Nat → String → FetchErr
  | parseFailure : String → FetchErr
deriving DecidableEq

/-- One optional-filter block of `_build_export_url` (Python
`if owner_id: url += f"&owner_id={owner_id}"`): the value is appended
only when truthy, which is false for both `None` and `""`. -/
def appendParam (url piece : String) (o : Option String) : String :=
  match o with
  | some v => if v ≠ "" then url ++ piece ++ v else url
  | none => url

/-- Embedding of `SquadcastClient._build_export_url`: the base URL
followed by the four optional-filter blocks in source order. -/
def build_export_url (base_api start_iso end_iso export_type : String)
    (owner_id assigned_to tags status : Option String) : String :=
  let url := rstripSlash base_api ++ "/incidents/export?type=" ++ export_type
      ++ "&start_time=" ++ start_iso ++ "&end_time=" ++ end_iso
  let url := appendParam url "&owner_id=" owner_id
  let url := appendParam url "&assigned_to=" assigned_to
  let url := appendParam url "&tags=" tags
  let url := appendParam url "&status=" status
  url

/-- Embedding of `SquadcastClient.export_incidents` applied to the
response of one HTTP call: non-200 responses raise
`RuntimeError(f"HTTP {status_code}: {text[:4000]}")`, otherwise the
response bytes are returned unchanged. -/
def export_incidents (resp : Response) : Except FetchErr String :=
  if resp.status_code ≠ 200 then
    Except.error (FetchErr.http resp.status_code (pySlice 4000 resp.text))
  else
    Except.ok resp.content

/-! ### `config.py` -/

/-- Embedding of the `STATUS` environment parsing in `load_settings`:
`STATUS` is split on commas, each item stripped and lower-cased, and
empty items are dropped. -/
def envStatusList (raw_status : String) : List String :=
  if raw_status ≠ "" then
    (pySplitComma raw_status).foldl (fun acc item =>
      if pyLower (pyStrip item) ≠ "" then acc ++ [pyLower (pyStrip item)]
      else acc) []
  else []

/-- The settings fields read by the embedded `fetch` logic
(`Settings.status`, `Settings.default_start`, `Settings.default_end`;
`None` is modelled by `[]` / `""`, matching Python truthiness).  The
credential and URL fields of `config.Settings` only feed the
authentication layer and the backend, which are abstracted into the
`backend` function. -/
structure Settings where
  status : List String
  default_start : String
  default_end : String

/-! ### `cli.py` — status normalization in `fetch` -/

/-- Embedding of the CLI status loop in `fetch`: each `--status` item is
split on commas, each part stripped, and non-empty parts appended. -/
def cliStatusItems (status : List String) : List String :=
  status.foldl (fun acc item =>
    (pySplitComma item).foldl (fun acc2 part =>
      if pyStrip part ≠ "" then acc2 ++ [pyStrip part] else acc2) acc) []

/-- Embedding of the CLI-overrides-env rule in `fetch`: when the CLI
supplied no status, fall back to `settings.status`. -/
def rawStatusList (cliStatus : List String) (envStatus : List String) :
    List String :=
  let status_list := cliStatusItems cliStatus
  if status_list = [] ∧ envStatus ≠ [] then envStatus else status_list

/-- Embedding of the duplicate-removal loop in `fetch` (`seen` models
the Python set by list membership). -/
def dedupKeepOrder : List String → List String → List String → List String
  | [], _seen, acc => acc
  | s :: rest, seen, acc =>
    if s ∈ seen then dedupKeepOrder rest seen acc
    else dedupKeepOrder rest (seen ++ [s]) (acc ++ [s])

/-- The normalized status list `fetch` loops over: CLI items (or the
settings fallback) with duplicates removed, keeping first occurrences. -/
def statusList (cliStatus : List String) (envStatus : List String) :
    List String :=
  dedupKeepOrder (rawStatusList cliStatus envStatus) [] []

/-- Embedding of `start_iso = start or settings.default_start`
(`""` models an absent value, matching Python truthiness). -/
def startIso (start : String) (settings : Settings) : String :=
  if start = "" then settings.default_start else start

/-- Embedding of `end_iso = end or settings.default_end`. -/
def endIso (endT : String) (settings : Settings) : String :=
  if endT = "" then settings.default_end else endT

/-! ### `cli.py` — JSON payload normalization -/

/-- Model of `"data" in data` / `data["data"]` on a Python dict. -/
def findData : List (String × Json) → Option Json
  | [] => none
  | (k, v) :: rest => if k = "data" then some v else findData rest

/-- Embedding of the dict branch of the JSON merge loop: prefer a list
under the key `data`; otherwise, when the dict has exactly one key
whose value is a list, use that list; otherwise `none` (the dict will
be appended as one opaque record). -/
def dictRecords (fields : List (String × Json)) : Option (List Json) :=
  match findData fields with
  | some (Json.arr xs) => some xs
  | _ =>
    match fields with
    | [(_, Json.arr xs)] => some xs
    | _ => none

/-- Embedding of the per-payload normalization in the JSON merge loop:
a list is used as-is, a dict goes through `dictRecords`, and anything
else is wrapped as a single-element list. -/
def normalizeRecords : Json → List Json
  | Json.arr xs => xs
  | Json.obj fields =>
    match dictRecords fields with
    | some recs => recs
    | none => [Json.obj fields]
  | j => [j]

/-! ### `cli.py` — the `fetch` command -/

/-- One backend export call for one status, as issued inside the
multi-status loops (`client.export_incidents(..., status=s)`). -/
def callBytes (backend : Option String → Response) (s : String) :
    Except FetchErr String :=
  export_incidents (backend (some s))

/-- One backend call followed by `json.loads`, with the parse failure
converted to the `RuntimeError` the JSON merge loop raises. -/
def callJson (parse : String → Option Json)
    (backend : Option String → Response) (s : String) :
    Except FetchErr Json :=
  match callBytes backend s with
  | Except.error e => Except.error e
  | Except.ok content =>
    match parse content with
    | none => Except.error (FetchErr.parseFailure s)
    | some j => Except.ok j

/-- The record list the JSON merge extracts from the partial payload of
status `s` (meaningful when the call and parse succeed). -/
def extractedRecords (parse : String → Option Json)
    (backend : Option String → Response) (s : String) : List Json :=
  match callJson parse backend s with
  | Except.ok j => normalizeRecords j
  | Except.error _ => []

/-- Embedding of the JSON multi-status loop in `fetch`: one call per
status, each payload parsed and normalized into records that are
appended to `acc`; `calls` records the statuses requested so far. -/
def jsonLoop (parse : String → Option Json)
    (backend : Option String → Response) :
    List String → List Json → List (Option String) →
    List (Option String) × Except FetchErr (List Json)
  | [], acc, calls => (calls, Except.ok acc)
  | s :: rest, acc, calls =>
    match callBytes backend s with
    | Except.error e => (calls ++ [some s], Except.error e)
    | Except.ok content =>
      match parse content with
      | none => (calls ++ [some s], Except.error (FetchErr.parseFailure s))
      | some data =>
          jsonLoop parse backend rest (acc ++ normalizeRecords data)
            (calls ++ [some s])

/-- Embedding of the CSV multi-status loop in `fetch`: one call per
status; each payload is stripped and split into lines, empty payloads
are skipped, the first non-empty payload supplies the header, and each
later payload contributes its tail when its first line equals the
header and all of its lines otherwise. -/
def csvLoop (backend : Option String → Response) :
    List String → Option String → List String → List (Option String) →
    List (Option String) × Except FetchErr (Option String × List String)
  | [], header, rows, calls => (calls, Except.ok (header, rows))
  | s :: rest, header, rows, calls =>
    match callBytes backend s with
    | Except.error e => (calls ++ [some s], Except.error e)
    | Except.ok content =>
      let text := pyStrip content
      if text = "" then csvLoop backend rest header rows (calls ++ [some s])
      else
        match splitlines text with
        | [] => csvLoop backend rest header rows (calls ++ [some s])
        | l0 :: ltail =>
          match header with
          | none =>
              csvLoop backend rest (some l0) (rows ++ ltail)
                (calls ++ [some s])
          | some h =>
            if l0 = h then
              csvLoop backend rest (some h) (rows ++ ltail)
                (calls ++ [some s])
            else
              csvLoop backend rest (some h) (rows ++ (l0 :: ltail))
                (calls ++ [some s])

/-- Embedding of the CSV assembly after the loop: no header means no
data at all (empty output), otherwise the header and rows are joined by
newlines with one trailing newline. -/
def mergeCsvOut : Option String × List String → String
  | (none, _) => ""
  | (some h, rows) => String.intercalate "\n" (h :: rows) ++ "\n"

instance {α β : Type} [DecidableEq α] [DecidableEq β] :
    DecidableEq (Except α β) := fun
  | Except.ok a, Except.ok b =>
    match decEq a b with
    | isTrue h => isTrue (by rw [h])
    | isFalse h => isFalse (by intro hh; cases hh; exact h rfl)
  | Except.ok _, Except.error _ => isFalse (by intro h; cases h)
  | Except.error _, Except.ok _ => isFalse (by intro h; cases h)
  | Except.error a, Except.error b =>
    match decEq a b with
    | isTrue h => isTrue (by rw [h])
    | isFalse h => isFalse (by intro hh; cases hh; exact h rfl)

/-- The observable outcome of `fetch`: the trace of backend calls (the
status each call was issued with) and the produced content or error. -/
structure FetchResult where
  calls : List (Option String)
  result : Except FetchErr String
deriving DecidableEq

/-- Embedding of the `fetch` command core (`cli.py`): validate the
export type, apply settings defaults to the time window, normalize the
statuses, require a non-empty window, then follow the single-call fast
path or the JSON/CSV merge loop. -/
def fetch (parse : String → Option Json)
    (backend : Option String → Response) (exportType : String)
    (start endT : String) (cliStatus : List String)
    (settings : Settings) : FetchResult :=
  if exportType ≠ "json" ∧ exportType ≠ "csv" then
    ⟨[], Except.error (FetchErr.badParameter "type must be json or csv")⟩
  else
    let start_iso := startIso start settings
    let end_iso := endIso endT settings
    let status_list := statusList cliStatus settings.status
    if start_iso = "" ∨ end_iso = "" then
      ⟨[], Except.error (FetchErr.badParameter
        "Provide --start/--end or set START_TIME/END_TIME in .env")⟩
    else if status_list.length ≤ 1 then
      ⟨[status_list.head?], export_incidents (backend status_list.head?)⟩
    else if exportType = "json" then
      let r := jsonLoop parse backend status_list [] []
      ⟨r.1, r.2.map (fun recs => dumps (Json.obj [("data", Json.arr recs)]))⟩
    else
      let r := csvLoop backend status_list none [] []
      ⟨r.1, r.2.map mergeCsvOut⟩

/-! ### Specification-side definitions

These restate the spec's descriptions of the merge and normalization
results; the claim theorems relate them to the embedded source
functions above. -/

/-- First-occurrence deduplication, as the spec describes it: keep each
element's first occurrence, in order. -/
def dedupFO : List String → List String
  | [] => []
  | x :: xs => x :: dedupFO (xs.filter (fun y => decide (y ≠ x)))
termination_by l => l.length
decreasing_by
  simp only [List.length_cons]
  exact Nat.lt_succ_of_le (List.length_filter_le _ _)

/-- The line list of the partial CSV payload for status `s`: the
payload stripped and split into lines (empty when the call failed;
the claims only use it when every call succeeds). -/
def csvPartLines (backend : Option String → Response) (s : String) :
    List String :=
  match callBytes backend s with
  | Except.ok c => splitlines (pyStrip c)
  | Except.error _ => []

/-- The non-empty partial CSV payloads, as line lists, in status
order. -/
def nonEmptyCsvParts (backend : Option String → Response)
    (L : List String) : List (List String) :=
  (L.map (csvPartLines backend)).filter (fun p => decide (p ≠ []))

/-- The rows a non-first partial contributes, per the spec: its tail
when its first line equals the merge header, all of its lines
otherwise. -/
def csvContribution (header : String) : List String → List String
  | [] => []
  | l0 :: lt => if l0 = header then lt else l0 :: lt

/-- The spec's description of the CSV merge state: the header is the
first line of the first non-empty partial, the rows are that partial's
tail followed by every later partial's contribution. -/
def csvMergeState : List (List String) → Option String × List String
  | [] => (none, [])
  | [] :: _ => (none, [])
  | (h :: t) :: rest => (some h, t ++ rest.flatMap (csvContribution h))

/-- The spec's description of the merged CSV bytes. -/
def csvMergeSpec (parts : List (List String)) : String :=
  mergeCsvOut (csvMergeState parts)

/-- Whether the CSV merge takes the header-mismatch fallback for some
partial: a later non-empty partial whose first line differs from the
merge header. -/
def csvFallbackTaken (backend : Option String → Response)
    (L : List String) : Bool :=
  match nonEmptyCsvParts backend L with
  | [] => false
  | first :: rest => rest.any (fun p => p.head? != first.head?)

/-- Collapse an empty-string filter value to an absent one (Python
treats both as falsy). -/
def denull : Option String → Option String
  | some v => if v = "" then none else some v
  | none => none

/-- A backend whose second CSV partial has a mismatching header, so the
merge takes the conservative fallback. -/
def csvBackendFallback : Option String → Response
  | some "a" => ⟨200, "", "h\nr1"⟩
  | some "b" => ⟨200, "", "h2\nr2"⟩
  | _ => ⟨200, "", ""⟩

/-- A backend whose single non-empty CSV partial already contains the
same four lines, so the merge is clean. -/
def csvBackendClean : Option String → Response
  | some "a" => ⟨200, "", "h\nr1\nh2\nr2"⟩
  | _ => ⟨200, "", ""⟩

/-! ### Helper lemmas about status normalization -/

theorem foldl_strip_append (g : String → String) (parts : List String) :
    ∀ acc : List String,
    parts.foldl (fun acc2 part =>
      if g part ≠ "" then acc2 ++ [g part] else acc2) acc
      = acc ++ (parts.map g).filter (fun p => decide (p ≠ "")) := by
  induction parts with
  | nil => intro acc; simp
  | cons part rest ih =>
    intro acc
    by_cases h : g part = ""
    · simp only [List.foldl_cons, List.map_cons, List.filter_cons, h]
      simpa [h] using ih acc
    · simp only [List.foldl_cons, List.map_cons, List.filter_cons]
      simpa [h] using ih (acc ++ [g part])

theorem cliStatusItems_foldl (status : List String) :
    ∀ acc : List String,
    status.foldl (fun acc item =>
      (pySplitComma item).foldl (fun acc2 part =>
        if pyStrip part ≠ "" then acc2 ++ [pyStrip part] else acc2) acc) acc
      = acc ++ status.flatMap (fun item =>
          ((pySplitComma item).map pyStrip).filter (fun p => decide (p ≠ ""))) := by
  induction status with
  | nil => intro acc; simp
  | cons item rest ih =>
    intro acc
    simp only [List.foldl_cons, List.flatMap_cons]
    rw [foldl_strip_append pyStrip (pySplitComma item) acc, ih, List.append_assoc]

theorem cliStatusItems_eq (status : List String) :
    cliStatusItems status = status.flatMap (fun item =>
      ((pySplitComma item).map pyStrip).filter (fun p => decide (p ≠ ""))) := by
  have h := cliStatusItems_foldl status []
  simpa [cliStatusItems] using h

theorem envStatusList_eq (raw : String) :
    envStatusList raw
      = ((pySplitComma raw).map (fun item => pyLower (pyStrip item))).filter
          (fun p => decide (p ≠ "")) := by
  unfold envStatusList
  by_cases h : raw = ""
  · subst h; decide
  · rw [if_pos h]
    have h2 := foldl_strip_append (fun item => pyLower (pyStrip item))
      (pySplitComma raw) []
    simpa using h2

theorem dedupFO_mem (l : List String) : ∀ y, y ∈ dedupFO l ↔ y ∈ l := by
  induction l using dedupFO.induct with
  | case1 => intro y; simp [dedupFO]
  | case2 x xs ih =>
    intro y
    simp only [dedupFO, List.mem_cons, ih, List.mem_filter, decide_eq_true_eq]
    by_cases hy : y = x <;> simp [hy]

theorem dedupFO_nodup (l : List String) : (dedupFO l).Nodup := by
  induction l using dedupFO.induct with
  | case1 => simp [dedupFO]
  | case2 x xs ih =>
    simp only [dedupFO, List.nodup_cons]
    refine ⟨?_, ih⟩
    intro hx
    rw [dedupFO_mem] at hx
    simp [List.mem_filter] at hx

theorem dedupFO_sublist (l : List String) : (dedupFO l).Sublist l := by
  induction l using dedupFO.induct with
  | case1 => simp [dedupFO]
  | case2 x xs ih =>
    simp only [dedupFO]
    exact List.Sublist.cons₂ x (ih.trans (List.filter_sublist _))

theorem dedupKeepOrder_eq (l : List String) :
    ∀ seen acc : List String,
    dedupKeepOrder l seen acc
      = acc ++ dedupFO (l.filter (fun y => decide (y ∉ seen))) := by
  induction l with
  | nil => intro seen acc; simp [dedupKeepOrder, dedupFO]
  | cons s rest ih =>
    intro seen acc
    by_cases h : s ∈ seen
    · have hstep : dedupKeepOrder (s :: rest) seen acc
          = dedupKeepOrder rest seen acc := by
        simp [dedupKeepOrder, h]
      have hfilter : (s :: rest).filter (fun y => decide (y ∉ seen))
          = rest.filter (fun y => decide (y ∉ seen)) := by
        simp [List.filter_cons, h]
      rw [hstep, ih, hfilter]
    · have hstep : dedupKeepOrder (s :: rest) seen acc
          = dedupKeepOrder rest (seen ++ [s]) (acc ++ [s]) := by
        simp [dedupKeepOrder, h]
      have hfilter : (s :: rest).filter (fun y => decide (y ∉ seen))
          = s :: rest.filter (fun y => decide (y ∉ seen)) := by
        simp [List.filter_cons, h]
      have key : ∀ y : String,
          decide (y ∉ seen ++ [s]) = (decide (y ≠ s) && decide (y ∉ seen)) := by
        intro y
        by_cases h1 : y = s <;> by_cases h2 : y ∈ seen <;>
          simp [h1, h2, List.mem_append]
      rw [hstep, ih, hfilter]
      simp only [dedupFO]
      rw [List.filter_filter,
        List.filter_congr (fun y _ => key y) (l := rest)]
      simp

theorem statusList_eq (cli env : List String) :
    statusList cli env = dedupFO (rawStatusList cli env) := by
  unfold statusList
  rw [dedupKeepOrder_eq]
  simp

/-! ### Helper lemmas about the merge loops -/

theorem splitChar_ne_nil (c : Char) (l : List Char) : splitChar c l ≠ [] := by
  induction l with
  | nil => simp [splitChar]
  | cons ch rest _ =>
    by_cases h : ch = c
    · simp [splitChar, h]
    · cases hr : splitChar c rest with
      | nil => simp [splitChar, h, hr]
      | cons g gs => simp [splitChar, h, hr]

theorem splitlines_ne_nil (s : String) (h : s ≠ "") : splitlines s ≠ [] := by
  unfold splitlines
  rw [if_neg h]
  simpa [pySplit] using splitChar_ne_nil '\n' s.data

theorem jsonLoop_ok (parse : String → Option Json)
    (backend : Option String → Response) (L : List String) :
    ∀ (acc : List Json) (calls : List (Option String)),
    (∀ s ∈ L, (callJson parse backend s).isOk = true) →
    jsonLoop parse backend L acc calls
      = (calls ++ L.map some,
         Except.ok (acc ++ L.flatMap (extractedRecords parse backend))) := by
  induction L with
  | nil => intro acc calls _; simp [jsonLoop]
  | cons s rest ih =>
    intro acc calls hok
    have hs := hok s (List.mem_cons_self s rest)
    cases hb : callBytes backend s with
    | error e => simp [callJson, hb, Except.isOk, Except.toBool] at hs
    | ok c =>
      cases hp : parse c with
      | none => simp [callJson, hb, hp, Except.isOk, Except.toBool] at hs
      | some data =>
        have hext : extractedRecords parse backend s = normalizeRecords data := by
          simp [extractedRecords, callJson, hb, hp]
        rw [show jsonLoop parse backend (s :: rest) acc calls
            = jsonLoop parse backend rest (acc ++ normalizeRecords data)
                (calls ++ [some s]) from by simp [jsonLoop, hb, hp]]
        rw [ih (acc ++ normalizeRecords data) (calls ++ [some s])
            (fun t ht => hok t (List.mem_cons_of_mem s ht))]
        simp [hext]

theorem jsonLoop_parseFail (parse : String → Option Json)
    (backend : Option String → Response) (pre : List String) :
    ∀ (s : String) (post : List String) (c : String)
      (acc : List Json) (calls : List (Option String)),
    (∀ t ∈ pre, (callJson parse backend t).isOk = true) →
    callBytes backend s = Except.ok c → parse c = none →
    jsonLoop parse backend (pre ++ s :: post) acc calls
      = (calls ++ (pre ++ [s]).map some,
         Except.error (FetchErr.parseFailure s)) := by
  induction pre with
  | nil =>
    intro s post c acc calls _ hb hp
    simp [jsonLoop, hb, hp]
  | cons t pre' ih =>
    intro s post c acc calls hok hb hp
    have ht := hok t (List.mem_cons_self t pre')
    cases hbt : callBytes backend t with
    | error e => simp [callJson, hbt, Except.isOk, Except.toBool] at ht
    | ok ct =>
      cases hpt : parse ct with
      | none => simp [callJson, hbt, hpt, Except.isOk, Except.toBool] at ht
      | some data =>
        rw [List.cons_append]
        rw [show jsonLoop parse backend (t :: (pre' ++ s :: post)) acc calls
            = jsonLoop parse backend (pre' ++ s :: post)
                (acc ++ normalizeRecords data) (calls ++ [some t]) from by
          simp [jsonLoop, hbt, hpt]]
        rw [ih s post c _ _ (fun u hu => hok u (List.mem_cons_of_mem t hu)) hb hp]
        simp

theorem jsonLoop_callFail (parse : String → Option Json)
    (backend : Option String → Response) (pre : List String) :
    ∀ (s : String) (post : List String) (e : FetchErr)
      (acc : List Json) (calls : List (Option String)),
    (∀ t ∈ pre, (callJson parse backend t).isOk = true) →
    callBytes backend s = Except.error e →
    jsonLoop parse backend (pre ++ s :: post) acc calls
      = (calls ++ (pre ++ [s]).map some, Except.error e) := by
  induction pre with
  | nil =>
    intro s post e acc calls _ hb
    simp [jsonLoop, hb]
  | cons t pre' ih =>
    intro s post e acc calls hok hb
    have ht := hok t (List.mem_cons_self t pre')
    cases hbt : callBytes backend t with
    | error e2 => simp [callJson, hbt, Except.isOk, Except.toBool] at ht
    | ok ct =>
      cases hpt : parse ct with
      | none => simp [callJson, hbt, hpt, Except.isOk, Except.toBool] at ht
      | some data =>
        rw [List.cons_append]
        rw [show jsonLoop parse backend (t :: (pre' ++ s :: post)) acc calls
            = jsonLoop parse backend (pre' ++ s :: post)
                (acc ++ normalizeRecords data) (calls ++ [some t]) from by
          simp [jsonLoop, hbt, hpt]]
        rw [ih s post e _ _ (fun u hu => hok u (List.mem_cons_of_mem t hu)) hb]
        simp

theorem csvLoop_ok_some (backend : Option String → Response)
    (L : List String) :
    ∀ (h : String) (rows : List String) (calls : List (Option String)),
    (∀ s ∈ L, (callBytes backend s).isOk = true) →
    csvLoop backend L (some h) rows calls
      = (calls ++ L.map some,
         Except.ok (some h,
           rows ++ (nonEmptyCsvParts backend L).flatMap (csvContribution h))) := by
  induction L with
  | nil => intro h rows calls _; simp [csvLoop, nonEmptyCsvParts]
  | cons s rest ih =>
    intro h rows calls hok
    have hs := hok s (List.mem_cons_self s rest)
    cases hb : callBytes backend s with
    | error e => simp [hb, Except.isOk, Except.toBool] at hs
    | ok c =>
      have hrest := fun t ht => hok t (List.mem_cons_of_mem s ht)
      have hpart : csvPartLines backend s = splitlines (pyStrip c) := by
        simp [csvPartLines, hb]
      by_cases hempty : pyStrip c = ""
      · have hp0 : csvPartLines backend s = [] := by
          simp [hpart, hempty, splitlines]
        rw [show csvLoop backend (s :: rest) (some h) rows calls
            = csvLoop backend rest (some h) rows (calls ++ [some s]) from by
          simp [csvLoop, hb, hempty]]
        rw [ih h rows (calls ++ [some s]) hrest]
        simp [nonEmptyCsvParts, List.filter_cons, hp0]
      · cases hl : splitlines (pyStrip c) with
        | nil => exact absurd hl (splitlines_ne_nil _ hempty)
        | cons l0 lt =>
          have hkeep : nonEmptyCsvParts backend (s :: rest)
              = (l0 :: lt) :: nonEmptyCsvParts backend rest := by
            simp [nonEmptyCsvParts, List.filter_cons, hpart, hl]
          by_cases hmatch : l0 = h
          · rw [show csvLoop backend (s :: rest) (some h) rows calls
                = csvLoop backend rest (some h) (rows ++ lt)
                    (calls ++ [some s]) from by
              simp [csvLoop, hb, hempty, hl, hmatch]]
            rw [ih h (rows ++ lt) (calls ++ [some s]) hrest]
            simp [hkeep, csvContribution, hmatch]
          · rw [show csvLoop backend (s :: rest) (some h) rows calls
                = csvLoop backend rest (some h) (rows ++ (l0 :: lt))
                    (calls ++ [some s]) from by
              simp [csvLoop, hb, hempty, hl, hmatch]]
            rw [ih h (rows ++ (l0 :: lt)) (calls ++ [some s]) hrest]
            simp [hkeep, csvContribution, hmatch]

theorem csvLoop_ok_none (backend : Option String → Response)
    (L : List String) :
    ∀ calls : List (Option String),
    (∀ s ∈ L, (callBytes backend s).isOk = true) →
    csvLoop backend L none [] calls
      = (calls ++ L.map some,
         Except.ok (csvMergeState (nonEmptyCsvParts backend L))) := by
  induction L with
  | nil => intro calls _; simp [csvLoop, nonEmptyCsvParts, csvMergeState]
  | cons s rest ih =>
    intro calls hok
    have hs := hok s (List.mem_cons_self s rest)
    cases hb : callBytes backend s with
    | error e => simp [hb, Except.isOk, Except.toBool] at hs
    | ok c =>
      have hrest := fun t ht => hok t (List.mem_cons_of_mem s ht)
      have hpart : csvPartLines backend s = splitlines (pyStrip c) := by
        simp [csvPartLines, hb]
      by_cases hempty : pyStrip c = ""
      · have hp0 : csvPartLines backend s = [] := by
          simp [hpart, hempty, splitlines]
        rw [show csvLoop backend (s :: rest) none [] calls
            = csvLoop backend rest none [] (calls ++ [some s]) from by
          simp [csvLoop, hb, hempty]]
        rw [ih (calls ++ [some s]) hrest]
        simp [nonEmptyCsvParts, List.filter_cons, hp0]
      · cases hl : splitlines (pyStrip c) with
        | nil => exact absurd hl (splitlines_ne_nil _ hempty)
        | cons l0 lt =>
          have hkeep : nonEmptyCsvParts backend (s :: rest)
              = (l0 :: lt) :: nonEmptyCsvParts backend rest := by
            simp [nonEmptyCsvParts, List.filter_cons, hpart, hl]
          rw [show csvLoop backend (s :: rest) none [] calls
              = csvLoop backend rest (some l0) lt (calls ++ [some s]) from by
            simp [csvLoop, hb, hempty, hl]]
          rw [csvLoop_ok_some backend rest l0 lt (calls ++ [some s]) hrest]
          simp [hkeep, csvMergeState]

theorem csvLoop_callFail (backend : Option String → Response)
    (pre : List String) :
    ∀ (s : String) (post : List String) (e : FetchErr)
      (header : Option String) (rows : List String)
      (calls : List (Option String)),
    (∀ t ∈ pre, (callBytes backend t).isOk = true) →
    callBytes backend s = Except.error e →
    csvLoop backend (pre ++ s :: post) header rows calls
      = (calls ++ (pre ++ [s]).map some, Except.error e) := by
  induction pre with
  | nil =>
    intro s post e header rows calls _ hb
    simp [csvLoop, hb]
  | cons t pre' ih =>
    intro s post e header rows calls hok hb
    have ht := hok t (List.mem_cons_self t pre')
    cases hbt : callBytes backend t with
    | error e2 => simp [hbt, Except.isOk, Except.toBool] at ht
    | ok c =>
      have hpre' := fun u hu => hok u (List.mem_cons_of_mem t hu)
      rw [List.cons_append]
      by_cases hempty : pyStrip c = ""
      · rw [show csvLoop backend (t :: (pre' ++ s :: post)) header rows calls
            = csvLoop backend (pre' ++ s :: post) header rows
                (calls ++ [some t]) from by
          simp [csvLoop, hbt, hempty]]
        rw [ih s post e header rows (calls ++ [some t]) hpre' hb]
        simp
      · cases hl : splitlines (pyStrip c) with
        | nil => exact absurd hl (splitlines_ne_nil _ hempty)
        | cons l0 lt =>
          cases header with
          | none =>
            rw [show csvLoop backend (t :: (pre' ++ s :: post)) none rows calls
                = csvLoop backend (pre' ++ s :: post) (some l0) (rows ++ lt)
                    (calls ++ [some t]) from by
              simp [csvLoop, hbt, hempty, hl]]
            rw [ih s post e (some l0) (rows ++ lt) (calls ++ [some t]) hpre' hb]
            simp
          | some h =>
            by_cases hm : l0 = h
            · rw [show csvLoop backend (t :: (pre' ++ s :: post)) (some h)
                    rows calls
                  = csvLoop backend (pre' ++ s :: post) (some h) (rows ++ lt)
                      (calls ++ [some t]) from by
                simp [csvLoop, hbt, hempty, hl, hm]]
              rw [ih s post e (some h) (rows ++ lt) (calls ++ [some t])
                hpre' hb]
              simp
            · rw [show csvLoop backend (t :: (pre' ++ s :: post)) (some h)
                    rows calls
                  = csvLoop backend (pre' ++ s :: post) (some h)
                      (rows ++ (l0 :: lt)) (calls ++ [some t]) from by
                simp [csvLoop, hbt, hempty, hl, hm]]
              rw [ih s post e (some h) (rows ++ (l0 :: lt))
                (calls ++ [some t]) hpre' hb]
              simp

theorem fetch_multi_json (parse : String → Option Json)
    (backend : Option String → Response) (start endT : String)
    (cli : List String) (settings : Settings)
    (hst : startIso start settings ≠ "") (hen : endIso endT settings ≠ "")
    (h2 : 2 ≤ (statusList cli settings.status).length) :
    fetch parse backend "json" start endT cli settings
      = ⟨(jsonLoop parse backend (statusList cli settings.status) [] []).1,
         (jsonLoop parse backend (statusList cli settings.status) [] []).2.map
           (fun recs => dumps (Json.obj [("data", Json.arr recs)]))⟩ := by
  have hlen : ¬ (statusList cli settings.status).length ≤ 1 := by omega
  simp [fetch, hst, hen, hlen]

theorem fetch_multi_csv (parse : String → Option Json)
    (backend : Option String → Response) (start endT : String)
    (cli : List String) (settings : Settings)
    (hst : startIso start settings ≠ "") (hen : endIso endT settings ≠ "")
    (h2 : 2 ≤ (statusList cli settings.status).length) :
    fetch parse backend "csv" start endT cli settings
      = ⟨(csvLoop backend (statusList cli settings.status) none [] []).1,
         (csvLoop backend (statusList cli settings.status) none [] []).2.map
           mergeCsvOut⟩ := by
  have hlen : ¬ (statusList cli settings.status).length ≤ 1 := by omega
  simp [fetch, hst, hen, hlen]

/-! ### Concrete backends and parsers used as witnesses -/

/-- A backend realising the end-to-end example of the spec: the
`triggered` payload is a dict with `data`, the `acknowledged` payload a
bare list. -/
def jsonDemoBackend : Option String → Response
  | some "triggered" => ⟨200, "", "OBJ"⟩
  | some "acknowledged" => ⟨200, "", "ARR"⟩
  | _ => ⟨200, "", ""⟩

/-- A parse function for the two payloads of `jsonDemoBackend`. -/
def jsonDemoParse : String → Option Json
  | "OBJ" => some (Json.obj [("data", Json.arr [Json.obj [("id", Json.num 1)]])])
  | "ARR" => some (Json.arr [Json.obj [("id", Json.num 2)]])
  | _ => none

/-- A CSV backend whose two partials share a header. -/
def csvDemoBackend : Option String → Response
  | some "a" => ⟨200, "", "h\nr1\nr2"⟩
  | some "b" => ⟨200, "", "h\nr3"⟩
  | _ => ⟨200, "", ""⟩

/-- A backend answering every call with status 200 and a fixed body. -/
def demoBackend : Option String → Response := fun _ => ⟨200, "", "BODY"⟩

/-- A backend answering every call with an HTTP 500. -/
def failBackend : Option String → Response := fun _ => ⟨500, "boom", ""⟩

/-- A backend for the parse-failure scenario: the `b` payload is not
parseable by `halfParse`. -/
def halfParseBackend : Option String → Response
  | some "a" => ⟨200, "", "GOOD"⟩
  | some "b" => ⟨200, "", "BAD"⟩
  | _ => ⟨200, "", ""⟩

/-- A parse function that only accepts the payload `GOOD`. -/
def halfParse : String → Option Json
  | "GOOD" => some (Json.arr [])
  | _ => none

/-! ### The claims -/

/-- C1: for every status list that normalizes to length ≥ 2, with JSON
format and a present time window, when every per-status call and parse
succeeds the merged export is the JSON encoding (`dumps`) of a mapping
with the single key `data` whose value is the concatenation, in
deduplicated status order, of the record lists `normalizeRecords`
extracts from each partial payload; consequently the length of `data`
equals the sum of the per-partial extracted record counts. -/
theorem c1_json_merge (parse : String → Option Json)
    (backend : Option String → Response) (start endT : String)
    (cli : List String) (settings : Settings)
    (hst : startIso start settings ≠ "") (hen : endIso endT settings ≠ "")
    (h2 : 2 ≤ (statusList cli settings.status).length)
    (hok : ∀ s ∈ statusList cli settings.status,
      (callJson parse backend s).isOk = true) :
    (fetch parse backend "json" start endT cli settings).result
      = Except.ok (dumps (Json.obj [("data", Json.arr
          ((statusList cli settings.status).flatMap
            (extractedRecords parse backend)))]))
    ∧ ((statusList cli settings.status).flatMap
          (extractedRecords parse backend)).length
        = ((statusList cli settings.status).map
            (fun s => (extractedRecords parse backend s).length)).sum := by
  constructor
  · rw [fetch_multi_json parse backend start endT cli settings hst hen h2]
    rw [jsonLoop_ok parse backend _ [] [] hok]
    simp [Except.map]
  · rw [List.length_flatMap]
    rfl

/-- Witness for C1, realising the end-to-end example of the spec
(statuses `triggered` and `acknowledged`). -/
theorem c1_json_merge_witness :
    (fetch jsonDemoParse jsonDemoBackend "json" "s" "e"
        ["triggered", "acknowledged"] ⟨[], "", ""⟩).result
      = Except.ok (dumps (Json.obj [("data", Json.arr
          ((statusList ["triggered", "acknowledged"]
              (Settings.mk [] "" "").status).flatMap
            (extractedRecords jsonDemoParse jsonDemoBackend)))]))
    ∧ ((statusList ["triggered", "acknowledged"]
          (Settings.mk [] "" "").status).flatMap
          (extractedRecords jsonDemoParse jsonDemoBackend)).length
        = ((statusList ["triggered", "acknowledged"]
            (Settings.mk [] "" "").status).map
            (fun s =>
              (extractedRecords jsonDemoParse jsonDemoBackend s).length)).sum :=
  c1_json_merge jsonDemoParse jsonDemoBackend "s" "e"
    ["triggered", "acknowledged"] ⟨[], "", ""⟩
    (by decide) (by decide) (by decide) (by decide)

/-- C2: for every status list that normalizes to length ≥ 2, with CSV
format and a present time window, when every per-status call succeeds
the merged output equals the spec's description `csvMergeSpec`: the
header is the first line of the first non-empty partial; a later
non-empty partial contributes its tail when its first line equals the
header and all of its lines otherwise; empty partials are skipped; the
result is empty when every partial is empty and otherwise the header
followed by all collected rows joined by newlines with one trailing
newline, so the output has exactly one header line and keeps every
contributed line. -/
theorem c2_csv_merge (parse : String → Option Json)
    (backend : Option String → Response) (start endT : String)
    (cli : List String) (settings : Settings)
    (hst : startIso start settings ≠ "") (hen : endIso endT settings ≠ "")
    (h2 : 2 ≤ (statusList cli settings.status).length)
    (hok : ∀ s ∈ statusList cli settings.status,
      (callBytes backend s).isOk = true) :
    (fetch parse backend "csv" start endT cli settings).result
      = Except.ok (csvMergeSpec
          (nonEmptyCsvParts backend (statusList cli settings.status))) := by
  rw [fetch_multi_csv parse backend start endT cli settings hst hen h2]
  rw [csvLoop_ok_none backend _ [] hok]
  simp [Except.map, csvMergeSpec]

/-- Witness for C2 on a concrete two-status CSV merge with matching
headers. -/
theorem c2_csv_merge_witness :
    (fetch (fun _ => none) csvDemoBackend "csv" "s" "e" ["a", "b"]
        ⟨[], "", ""⟩).result
      = Except.ok (csvMergeSpec (nonEmptyCsvParts csvDemoBackend
          (statusList ["a", "b"] (Settings.mk [] "" "").status))) :=
  c2_csv_merge (fun _ => none) csvDemoBackend "s" "e" ["a", "b"] ⟨[], "", ""⟩
    (by decide) (by decide) (by decide) (by decide)

/-- C3: whenever the normalized status list has zero or one entry (and
the time window is present and the export type valid), `fetch` issues
exactly one backend call — with the single status, or with no status
when the list is empty — and returns that call's bytes unchanged. -/
theorem c3_single_status (parse : String → Option Json)
    (backend : Option String → Response) (exportType start endT : String)
    (cli : List String) (settings : Settings)
    (htype : exportType = "json" ∨ exportType = "csv")
    (hst : startIso start settings ≠ "") (hen : endIso endT settings ≠ "")
    (h1 : (statusList cli settings.status).length ≤ 1) :
    fetch parse backend exportType start endT cli settings
      = ⟨[(statusList cli settings.status).head?],
         export_incidents (backend (statusList cli settings.status).head?)⟩ := by
  rcases htype with h | h <;> subst h <;> simp [fetch, hst, hen, h1]

/-- Witness for C3 with one status. -/
theorem c3_single_status_witness :
    fetch (fun _ => none) demoBackend "json" "s" "e" ["ack"] ⟨[], "", ""⟩
      = ⟨[(statusList ["ack"] (Settings.mk [] "" "").status).head?],
         export_incidents (demoBackend
           (statusList ["ack"] (Settings.mk [] "" "").status).head?)⟩ :=
  c3_single_status (fun _ => none) demoBackend "json" "s" "e" ["ack"]
    ⟨[], "", ""⟩ (Or.inl rfl) (by decide) (by decide) (by decide)

/-- C4: for every status input, the normalization splits comma-joined
entries, trims whitespace, drops empty entries (`cliStatusItems`
equality), and deduplicates keeping first occurrences in order
(`dedupFO` equality, no-duplicates, order-preserving sublist); in
particular deduplicating `["ack", "ack", "triggered", "ack"]` yields
`["ack", "triggered"]`. -/
theorem c4_status_normalization (cli env : List String) :
    statusList cli env = dedupFO (rawStatusList cli env)
    ∧ cliStatusItems cli = cli.flatMap (fun item =>
        ((pySplitComma item).map pyStrip).filter (fun p => decide (p ≠ "")))
    ∧ (statusList cli env).Nodup
    ∧ (statusList cli env).Sublist (rawStatusList cli env)
    ∧ statusList ["ack", "ack", "triggered", "ack"] [] = ["ack", "triggered"]
    ∧ dedupFO ["ack", "ack", "triggered", "ack"] = ["ack", "triggered"] := by
  refine ⟨statusList_eq cli env, cliStatusItems_eq cli, ?_, ?_, by decide, ?_⟩
  · rw [statusList_eq]; exact dedupFO_nodup _
  · rw [statusList_eq]; exact dedupFO_sublist _
  · have h := statusList_eq ["ack", "ack", "triggered", "ack"] []
    have hraw : rawStatusList ["ack", "ack", "triggered", "ack"] []
        = ["ack", "ack", "triggered", "ack"] := by decide
    rw [hraw] at h
    rw [← h]
    decide

/-- Counterexample to C5 as stated: a caller-supplied status reaches
the normalized list used for export without being lower-cased. -/
theorem c5_counterexample :
    statusList ["Triggered"] [] = ["Triggered"]
    ∧ pyLower "Triggered" ≠ "Triggered" := by decide

/-- C5 as amended: only the entries taken from settings (the `STATUS`
environment value parsed by `load_settings`) are case-normalized to
lower-case — every such entry is the lower-casing of a trimmed comma
piece — while entries supplied by the caller enter the normalized list
verbatim after splitting and trimming, with no case normalization. -/
theorem c5_env_lowercased :
    (∀ raw e, e ∈ envStatusList raw →
      ∃ item, item ∈ pySplitComma raw ∧ e = pyLower (pyStrip item))
    ∧ (∀ cli e, e ∈ cliStatusItems cli →
      ∃ item part, item ∈ cli ∧ part ∈ pySplitComma item ∧ e = pyStrip part) := by
  constructor
  · intro raw e he
    rw [envStatusList_eq] at he
    obtain ⟨hm, _⟩ := List.mem_filter.mp he
    obtain ⟨item, hitem, rfl⟩ := List.mem_map.mp hm
    exact ⟨item, hitem, rfl⟩
  · intro cli e he
    rw [cliStatusItems_eq] at he
    obtain ⟨item, hitem, hin⟩ := List.mem_flatMap.mp he
    obtain ⟨hm, _⟩ := List.mem_filter.mp hin
    obtain ⟨part, hpart, rfl⟩ := List.mem_map.mp hm
    exact ⟨item, part, hitem, hpart, rfl⟩

/-- Witness for the amended C5: the settings entry `ack` obtained from
`STATUS=ACK`, and the caller entry `Ack` kept verbatim. -/
theorem c5_env_lowercased_witness :
    (∃ item, item ∈ pySplitComma "ACK" ∧ "ack" = pyLower (pyStrip item))
    ∧ (∃ item part, item ∈ ["Ack"] ∧ part ∈ pySplitComma item
        ∧ "Ack" = pyStrip part) :=
  ⟨c5_env_lowercased.1 "ACK" "ack" (by decide),
   c5_env_lowercased.2 ["Ack"] "Ack" (by decide)⟩

/-- C6: in a JSON multi-status export, when the calls before `s` all
succeed and parse but the payload of `s` fails to parse, the whole
export fails with the error identifying `s`, and no merged output is
produced. -/
theorem c6_parse_failure (parse : String → Option Json)
    (backend : Option String → Response) (start endT : String)
    (cli : List String) (settings : Settings)
    (pre : List String) (s : String) (post : List String) (c : String)
    (hst : startIso start settings ≠ "") (hen : endIso endT settings ≠ "")
    (h2 : 2 ≤ (statusList cli settings.status).length)
    (hL : statusList cli settings.status = pre ++ s :: post)
    (hpre : ∀ t ∈ pre, (callJson parse backend t).isOk = true)
    (hb : callBytes backend s = Except.ok c)
    (hp : parse c = none) :
    (fetch parse backend "json" start endT cli settings).result
      = Except.error (FetchErr.parseFailure s) := by
  rw [fetch_multi_json parse backend start endT cli settings hst hen h2]
  rw [hL, jsonLoop_parseFail parse backend pre s post c [] [] hpre hb hp]
  simp [Except.map]

/-- Witness for C6: the payload for status `b` is unparseable, the
export fails naming `b`. -/
theorem c6_parse_failure_witness :
    (fetch halfParse halfParseBackend "json" "s" "e" ["a", "b"]
        ⟨[], "", ""⟩).result
      = Except.error (FetchErr.parseFailure "b") :=
  c6_parse_failure halfParse halfParseBackend "s" "e" ["a", "b"] ⟨[], "", ""⟩
    ["a"] "b" [] "BAD" (by decide) (by decide) (by decide) (by decide)
    (by decide) rfl rfl

/-- Counterexample to C7 as stated: an HTTP 201 response is a success
(2xx) yet `export_incidents` raises instead of returning the bytes. -/
theorem c7_counterexample :
    (200 ≤ 201 ∧ 201 < 300)
    ∧ export_incidents ⟨201, "created", "payload"⟩
        = Except.error (FetchErr.http 201 (pySlice 4000 "created"))
    ∧ export_incidents ⟨201, "created", "payload"⟩
        ≠ Except.ok "payload" := by decide

/-- C7 as amended: a single backend call returns the response bytes if
and only if the HTTP status is exactly 200 (so non-200 responses,
including other 2xx codes, raise); the error carries the status code
and a body preview of at most 4000 characters; and in a multi-status
loop (JSON or CSV) a failing call for one status ends the loop with
that error, before any call for a later status is issued. -/
theorem c7_http_error_handling :
    (∀ resp : Response,
      export_incidents resp = Except.ok resp.content
        ↔ resp.status_code = 200)
    ∧ (∀ resp : Response, resp.status_code ≠ 200 →
        export_incidents resp
          = Except.error (FetchErr.http resp.status_code
              (pySlice 4000 resp.text))
        ∧ (pySlice 4000 resp.text).length ≤ 4000)
    ∧ (∀ (parse : String → Option Json) (backend : Option String → Response)
        (pre : List String) (s : String) (post : List String) (e : FetchErr)
        (acc : List Json) (calls : List (Option String)),
        (∀ t ∈ pre, (callJson parse backend t).isOk = true) →
        callBytes backend s = Except.error e →
        jsonLoop parse backend (pre ++ s :: post) acc calls
          = (calls ++ (pre ++ [s]).map some, Except.error e))
    ∧ (∀ (backend : Option String → Response)
        (pre : List String) (s : String) (post : List String) (e : FetchErr)
        (header : Option String) (rows : List String)
        (calls : List (Option String)),
        (∀ t ∈ pre, (callBytes backend t).isOk = true) →
        callBytes backend s = Except.error e →
        csvLoop backend (pre ++ s :: post) header rows calls
          = (calls ++ (pre ++ [s]).map some, Except.error e)) := by
  refine ⟨?_, ?_, jsonLoop_callFail, csvLoop_callFail⟩
  · intro resp
    constructor
    · intro h
      by_contra hne
      simp [export_incidents, hne] at h
    · intro h
      simp [export_incidents, h]
  · intro resp h
    refine ⟨by simp [export_incidents, h], ?_⟩
    have h2 : (pySlice 4000 resp.text).length
        = (resp.text.data.take 4000).length := rfl
    rw [h2, List.length_take]
    exact Nat.min_le_left _ _

/-- Witness for the amended C7: a 200 response returns its bytes, a 404
response raises with the bounded preview, and a failing first call ends
a two-status JSON loop after one call. -/
theorem c7_http_error_handling_witness :
    export_incidents ⟨200, "t", "c"⟩ = Except.ok (Response.mk 200 "t" "c").content
    ∧ (export_incidents ⟨404, "nope", "x"⟩
        = Except.error (FetchErr.http (Response.mk 404 "nope" "x").status_code
            (pySlice 4000 (Response.mk 404 "nope" "x").text))
      ∧ (pySlice 4000 (Response.mk 404 "nope" "x").text).length ≤ 4000)
    ∧ jsonLoop (fun _ => none) failBackend ([] ++ "a" :: ["b"]) [] []
        = ([] ++ (([] : List String) ++ ["a"]).map some,
           Except.error (FetchErr.http 500 (pySlice 4000 "boom"))) :=
  ⟨(c7_http_error_handling.1 ⟨200, "t", "c"⟩).mpr rfl,
   c7_http_error_handling.2.1 ⟨404, "nope", "x"⟩ (by decide),
   c7_http_error_handling.2.2.1 (fun _ => none) failBackend [] "a" ["b"]
     (FetchErr.http 500 (pySlice 4000 "boom")) [] [] (by simp) rfl⟩

/-- Counterexample to C8 as stated: a merge that takes the
header-mismatch fallback and a clean merge can give byte-identical
outcomes (same calls, same bytes, no warning flag anywhere in the
result), so the caller cannot distinguish them. -/
theorem c8_counterexample :
    fetch (fun _ => none) csvBackendFallback "csv" "s" "e" ["a", "b"]
        ⟨[], "", ""⟩
      = fetch (fun _ => none) csvBackendClean "csv" "s" "e" ["a", "b"]
          ⟨[], "", ""⟩
    ∧ csvFallbackTaken csvBackendFallback (statusList ["a", "b"] []) = true
    ∧ csvFallbackTaken csvBackendClean (statusList ["a", "b"] []) = false := by
  decide

/-- C8 as amended: when the CSV merge meets a partial whose first line
differs from the merge header it keeps all of that partial's lines (the
loop result appends exactly `csvContribution`, which is the whole line
list on a mismatch), but `fetch` returns only the merged bytes with no
warning flag, and a fallback merge can be byte-for-byte identical to a
clean merge, so the fallback is not distinguishable by the caller. -/
theorem c8_fallback_not_flagged :
    (∀ (backend : Option String → Response) (L : List String)
        (h : String) (rows : List String) (calls : List (Option String)),
      (∀ s ∈ L, (callBytes backend s).isOk = true) →
      csvLoop backend L (some h) rows calls
        = (calls ++ L.map some,
           Except.ok (some h,
             rows ++ (nonEmptyCsvParts backend L).flatMap (csvContribution h))))
    ∧ (∀ (h l0 : String) (lt : List String), l0 ≠ h →
        csvContribution h (l0 :: lt) = l0 :: lt)
    ∧ (fetch (fun _ => none) csvBackendFallback "csv" "s" "e" ["a", "b"]
          ⟨[], "", ""⟩
        = fetch (fun _ => none) csvBackendClean "csv" "s" "e" ["a", "b"]
            ⟨[], "", ""⟩
      ∧ csvFallbackTaken csvBackendFallback (statusList ["a", "b"] []) = true
      ∧ csvFallbackTaken csvBackendClean (statusList ["a", "b"] []) = false) := by
  refine ⟨csvLoop_ok_some, ?_, by decide⟩
  intro h l0 lt hne
  simp [csvContribution, hne]

/-- Witness for the amended C8: a mismatching partial keeps all its
lines, both in `csvContribution` and through one loop step. -/
theorem c8_fallback_not_flagged_witness :
    csvContribution "h" ("h2" :: ["r2"]) = "h2" :: ["r2"]
    ∧ csvLoop csvBackendFallback ["b"] (some "h") ["r1"] [some "a"]
        = ([some "a"] ++ ["b"].map some,
           Except.ok (some "h",
             ["r1"] ++ (nonEmptyCsvParts csvBackendFallback ["b"]).flatMap
               (csvContribution "h"))) :=
  ⟨c8_fallback_not_flagged.2.1 "h" "h2" ["r2"] (by decide),
   c8_fallback_not_flagged.1 csvBackendFallback ["b"] "h" ["r1"] [some "a"]
     (by decide)⟩

/-- C9: when the start or the end of the time window is empty after
applying the settings defaults, `fetch` fails immediately with the
configuration error, before issuing any backend call (the call trace is
empty). -/
theorem c9_missing_window (parse : String → Option Json)
    (backend : Option String → Response) (exportType start endT : String)
    (cli : List String) (settings : Settings)
    (htype : exportType = "json" ∨ exportType = "csv")
    (h : startIso start settings = "" ∨ endIso endT settings = "") :
    fetch parse backend exportType start endT cli settings
      = ⟨[], Except.error (FetchErr.badParameter
          "Provide --start/--end or set START_TIME/END_TIME in .env")⟩ := by
  rcases htype with ht | ht <;> subst ht <;>
    rcases h with h | h <;> simp [fetch, h]

/-- Witness for C9: a missing start with no default fails without any
backend call. -/
theorem c9_missing_window_witness :
    fetch (fun _ => none) demoBackend "json" "" "e" [] ⟨[], "", ""⟩
      = ⟨[], Except.error (FetchErr.badParameter
          "Provide --start/--end or set START_TIME/END_TIME in .env")⟩ :=
  c9_missing_window (fun _ => none) demoBackend "json" "" "e" [] ⟨[], "", ""⟩
    (Or.inl rfl) (Or.inl (by decide))

/-- C10: passing the empty string for any optional filter (owner,
assignee, tags, status) produces exactly the same export URL as passing
no value at all — falsy filter values are omitted from the URL. -/
theorem c10_empty_filter_omitted (base s e t : String)
    (owner assigned tags status : Option String) :
    build_export_url base s e t (denull owner) (denull assigned)
        (denull tags) (denull status)
      = build_export_url base s e t owner assigned tags status := by
  have step : ∀ (u piece : String) (o : Option String),
      appendParam u piece (denull o) = appendParam u piece o := by
    intro u piece o
    rcases o with _ | v
    · rfl
    · by_cases hv : v = ""
      · subst hv; simp [denull, appendParam]
      · simp [denull, appendParam, hv]
  simp only [build_export_url, step]
